import Mathlib

/-!
Verification development for the earthquake ingestion core of `TP_solemne_II`
(`src/api.py`): a shallow embedding of the numeric/date parsers, the
normalizer `_normalize_df`, the four source adapters' pure normalization
stages, the fetch orchestrator `fetch_sismos`, and the filter
`filter_sismos`, together with theorems settling the specification's claims.

Modelling conventions:
* pandas cell values are `PyVal` (`None`/NaN/NaT are all `vNone`; timestamps
  are `vTime` holding a UTC epoch-second instant; numbers are exact `Rat`).
* A DataFrame is a column-name list plus rows kept as association lists
  (`Row`), written by `rset` exactly where pandas assigns a column.
* Network, HTML and JSON transport are outside the embedding: each adapter's
  pure normalization stage takes the already-extracted raw records (the
  regex captures for the scrapers, the decoded JSON value for the APIs),
  and the orchestrator takes each adapter call's outcome as an input.
-/

set_option maxRecDepth 10000

attribute [local semireducible] Rat.add Rat.mul Rat.inv Rat.sub Rat.ofScientific

namespace Sismos

/-- A pandas cell value: `vNone` models Python `None` / NaN / NaT, `vStr` a
string, `vNum` an (exact) number, `vTime` a timezone-aware timestamp by its
UTC epoch-second instant (`tz_convert` changes only the display zone, never
the instant, so an instant fully represents the value). -/
inductive PyVal where
  | vNone : PyVal
  | vStr (s : String) : PyVal
  | vNum (q : Rat) : PyVal
  | vTime (t : Int) : PyVal
deriving DecidableEq, Repr

/-- A DataFrame row: cells keyed by column name. -/
abbrev Row := List (String × PyVal)

/-- Cell access `row[col]`; missing keys read as null (our pipelines only
read columns they have set). -/
def rget : Row → String → PyVal
  | [], _ => .vNone
  | (k, v) :: t, key => if k = key then v else rget t key

/-- Whether the row already has the column. -/
def hasKey : Row → String → Bool
  | [], _ => false
  | (k, _) :: t, key => k == key || hasKey t key

/-- Replace the value stored under an existing column, in place. -/
def replaceKey : Row → String → PyVal → Row
  | [], _, _ => []
  | (k, w) :: t, key, v =>
    if k = key then (key, v) :: replaceKey t key v else (k, w) :: replaceKey t key v

/-- pandas column assignment at row level: overwrite the column in place if
present, else append it on the right. -/
def rset (r : Row) (key : String) (v : PyVal) : Row :=
  if hasKey r key then replaceKey r key v else r ++ [(key, v)]

/-- A DataFrame: ordered column names and the rows. -/
structure DF where
  cols : List String
  rows : List Row
deriving DecidableEq, Repr

/-- `df[k] = <series computed per row>`: the new column is appended on the
right when absent, overwritten in place when present — the embedding of both
`df[k] = df[src]` and `df[k] = df[k].apply(f)`. -/
def DF.setCol (df : DF) (k : String) (f : Row → PyVal) : DF :=
  { cols := if k ∈ df.cols then df.cols else df.cols ++ [k],
    rows := df.rows.map fun r => rset r k (f r) }

/-- Boolean-mask row filtering (`df[mask]` / `dropna`). -/
def DF.filterRows (df : DF) (p : Row → Bool) : DF :=
  { cols := df.cols, rows := df.rows.filter p }

/-! ## The numeric parser `_to_float` and its regex `[-+]?\d+(?:[\.,]\d+)?` -/

/-- ASCII decimal digit, the characters matched by the pattern's digit class
on this repository's data. -/
def isDig (c : Char) : Bool := '0' ≤ c && c ≤ '9'

/-- ASCII lowercasing of one character — the case folding Python's
`str.lower` applies to the ASCII column names and keywords of these
feeds. -/
def lowerChar (c : Char) : Char :=
  if 'A' ≤ c && c ≤ 'Z' then Char.ofNat (c.toNat + 32) else c

/-- `s.lower()`, character by character. -/
def lowerStr (s : String) : String := ⟨s.data.map lowerChar⟩

/-- Whitespace as removed by `str.strip`. -/
def isWS (c : Char) : Bool := c = ' ' || c = '\t' || c = '\n' || c = '\r'

/-- `s.strip()`: surrounding whitespace removed. -/
def stripStr (s : String) : String :=
  ⟨((s.data.dropWhile isWS).reverse.dropWhile isWS).reverse⟩

/-- Greedy match of `\d+(?:[\.,]\d+)?` at the head of the character list:
all leading digits, then a `.`/`,` group only when digits follow it
(otherwise the optional group backtracks away). Returns the matched token. -/
def numTail (l : List Char) : Option (List Char) :=
  let ds := l.takeWhile isDig
  if ds.isEmpty then none
  else
    match l.drop ds.length with
    | sep :: r2 =>
      if sep = '.' || sep = ',' then
        let ds2 := r2.takeWhile isDig
        if ds2.isEmpty then some ds else some (ds ++ sep :: ds2)
      else some ds
    | [] => some ds

/-- Match of the full pattern `[-+]?\d+(?:[\.,]\d+)?` anchored at the head:
a sign is consumed only when digits follow it (regex backtracking on
`[-+]?` cannot help otherwise, since the sign character is not a digit). -/
def matchAt (l : List Char) : Option (List Char) :=
  match l with
  | [] => none
  | c :: rest =>
    if c = '-' || c = '+' then (numTail rest).map (fun t => c :: t)
    else numTail l

/-- `re.search`: try the pattern at each position left to right, returning
the leftmost match. -/
def floatSearch : List Char → Option (List Char)
  | [] => none
  | c :: rest =>
    match matchAt (c :: rest) with
    | some t => some t
    | none => floatSearch rest

/-- Numeric value of a digit list. -/
def digitsToNat (ds : List Char) : Nat :=
  ds.foldl (fun a c => a * 10 + (c.toNat - 48)) 0

/-- Value of an unsigned matched token `\d+(?:[\.,]\d+)?` after the
source's `.replace(",", ".")`: integer part plus fractional part. -/
def tokValUnsigned (l : List Char) : Rat :=
  let ip := l.takeWhile isDig
  match l.drop ip.length with
  | _ :: fr => (digitsToNat ip : Rat) + (digitsToNat fr : Rat) / ((10 : Rat) ^ fr.length)
  | [] => (digitsToNat ip : Rat)

/-- `float(tok.replace(",", "."))` on a token produced by the pattern. -/
def tokVal (l : List Char) : Rat :=
  match l with
  | '-' :: r => -tokValUnsigned r
  | '+' :: r => tokValUnsigned r
  | _ => tokValUnsigned l

/-- `_to_float` on the string form of a non-null input: search for the first
number, parse it, else `None`. -/
def toFloatStr (s : String) : Option Rat :=
  match floatSearch s.data with
  | none => none
  | some tok => some (tokVal tok)

/-- Textual form `str(x)` of a cell. String cells are themselves; `None`
prints as `"None"`. Numeric and timestamp cells are given a simple literal
form: none of this repository's feeds route them through `str`, and no
theorem depends on these two branches. -/
def pyToStr : PyVal → String
  | .vNone => "None"
  | .vStr s => s
  | .vNum q => if q.den = 1 then toString q.num ++ ".0" else toString q.num ++ "/" ++ toString q.den
  | .vTime t => "Timestamp(" ++ toString t ++ ")"

/-- `_to_float(x)`: `None` for null input, else the first signed decimal
number found in `str(x)` with `.` or `,` accepted as decimal separator. -/
def pyToFloat : PyVal → Option Rat
  | .vNone => none
  | v =>
    match floatSearch (pyToStr v).data with
    | none => none
    | some tok => some (tokVal tok)

/-! ## The date parser: `pd.to_datetime(s, utc=True, errors="coerce")`

Modelled on the textual formats this repository's feeds produce
(`YYYY-MM-DD`, `YYYY-MM-DD HH:MM:SS`, ISO 8601 with `T`, optional
fractional seconds and optional `Z`). Calendar-invalid fields (month 13,
hour 24, February 30, ...) coerce to the no-value marker `none` (NaT),
exactly as `errors="coerce"` does. The result is a UTC epoch-second
instant (fractional seconds truncated). -/

/-- Gregorian leap year. -/
def isLeap (y : Int) : Bool := y % 4 == 0 && (y % 100 != 0 || y % 400 == 0)

/-- Days in a month. -/
def daysInMonth (y m : Int) : Int :=
  if m = 2 then (if isLeap y then 29 else 28)
  else if m = 4 || m = 6 || m = 9 || m = 11 then 30
  else 31

/-- Days from 1970-01-01 to the civil date `y-m-d` (standard era-based
civil-calendar arithmetic). -/
def daysFromCivil (y m d : Int) : Int :=
  let y' := if m ≤ 2 then y - 1 else y
  let era := Int.fdiv y' 400
  let yoe := y' - era * 400
  let mp := if m > 2 then m - 3 else m + 9
  let doy := Int.fdiv (153 * mp + 2) 5 + d - 1
  let doe := yoe * 365 + Int.fdiv yoe 4 - Int.fdiv yoe 100 + doy
  era * 146097 + doe - 719468

/-- Two-digit field value, when both characters are digits. -/
def dig2 (a b : Char) : Option Nat :=
  if isDig a && isDig b then some ((a.toNat - 48) * 10 + (b.toNat - 48)) else none

/-- Epoch seconds of a validated date plus time of day. -/
def civilSecs (y mo d h mi s : Nat) : Option Int :=
  if 1 ≤ mo ∧ mo ≤ 12 ∧ 1 ≤ d ∧ (d : Int) ≤ daysInMonth y mo ∧ h < 24 ∧ mi < 60 ∧ s < 60 then
    some (daysFromCivil y mo d * 86400 + (h : Int) * 3600 + (mi : Int) * 60 + (s : Int))
  else none

/-- The tail allowed after `HH:MM:SS`: nothing, `Z`, or fractional seconds
`.d+` optionally followed by `Z` (fractional part truncated). -/
def tailOk : List Char → Bool
  | [] => true
  | ['Z'] => true
  | '.' :: r =>
    let ds := r.takeWhile isDig
    !ds.isEmpty && (r.drop ds.length = [] || r.drop ds.length = ['Z'])
  | _ => false

/-- Parse the time-of-day part `HH:MM:SS[.fff][Z]` to (hour, min, sec). -/
def parseHMS : List Char → Option (Nat × Nat × Nat)
  | h1 :: h2 :: ':' :: m1 :: m2 :: ':' :: s1 :: s2 :: rest => do
    let h ← dig2 h1 h2
    let mi ← dig2 m1 m2
    let s ← dig2 s1 s2
    if tailOk rest then some (h, mi, s) else none
  | _ => none

/-- Parse `YYYY-MM-DD` followed by an optional ` `/`T` time part, with
calendar validation; `none` is the coerced NaT. -/
def parseDateStr (s : String) : Option Int :=
  match s.data with
  | y1 :: y2 :: y3 :: y4 :: '-' :: m1 :: m2 :: '-' :: d1 :: d2 :: rest =>
    if isDig y1 && isDig y2 && isDig y3 && isDig y4 then
      match dig2 m1 m2, dig2 d1 d2 with
      | some mo, some d =>
        let y := digitsToNat [y1, y2, y3, y4]
        match rest with
        | [] => civilSecs y mo d 0 0 0
        | sep :: tl =>
          if sep = ' ' || sep = 'T' then
            match parseHMS tl with
            | some (h, mi, sec) => civilSecs y mo d h mi sec
            | none => none
          else none
      | _, _ => none
    else none
  | _ => none

/-- `pd.to_datetime(cell, utc=True, errors="coerce")` on one cell: null
and NaT-like cells stay NaT; strings are parsed; other cell kinds do not
occur as event-time cells in these feeds and coerce to NaT here. -/
def parseFechaV : PyVal → Option Int
  | .vNone => none
  | .vStr s => parseDateStr s
  | .vNum _ => none
  | .vTime t => some t

/-! ## Timezone model

The spec fixes the single display zone (America/Santiago) and states the
conversion is a fixed-offset one ("fixed offset conversion, no
missing-zone-data failure path needed since the target zone is constant").
Modelled from the spec: the zone's UTC offset as the constant Chile
standard offset of −4 hours. No theorem depends on the specific value,
only on the conversion's structure (and, for the CSN counterexample, on
the offset being nonzero — true of every historical America/Santiago
offset). -/
def santiagoOffsetSecs : Int := -14400

/-- `series.dt.tz_convert("America/Santiago")` on a cell: converting an
aware timestamp changes only its display zone, never its instant; NaT
stays NaT. -/
def tzConvertV : PyVal → PyVal
  | .vTime t => .vTime t
  | _ => .vNone

/-- `tz_localize("America/Santiago")` of a naive wall-clock reading `w`
(taken as seconds): the instant whose Santiago wall clock shows `w`. -/
def tzLocalizeSantiago (w : Int) : Int := w - santiagoOffsetSecs

/-- Santiago wall-clock seconds of an instant. -/
def santiagoWall (t : Int) : Int := t + santiagoOffsetSecs

/-- `.dt.date` of a Santiago-aware timestamp, represented by the calendar
day's epoch-day number; NaT propagates. -/
def diaV : PyVal → PyVal
  | .vTime t => .vNum ((Int.fdiv (santiagoWall t) 86400 : Int) : Rat)
  | _ => .vNone

/-- Left-pad to two digits. -/
def pad2 (n : Nat) : String := if n < 10 then "0" ++ toString n else toString n

/-- `.dt.strftime("%H:%M")` of a Santiago-aware timestamp. -/
def horaV : PyVal → PyVal
  | .vTime t =>
    let w := (Int.emod (santiagoWall t) 86400).toNat
    .vStr (pad2 (w / 3600) ++ ":" ++ pad2 (w % 3600 / 60))
  | _ => .vStr "NaT"

/-! ## The normalizer `_normalize_df` -/

/-- The candidate source-name lists, canonical field by canonical field,
exactly the `colmap` dictionary of `_normalize_df` in its iteration
order. -/
def colmap : List (String × List String) :=
  [("fecha", ["fecha", "fechautc", "time", "tiempo", "timestamp", "datetime", "date"]),
   ("magnitud", ["magnitud", "mag", "magnitude", "ml", "mw"]),
   ("profundidad", ["profundidad", "prof", "depth", "z"]),
   ("latitud", ["latitud", "lat", "latitude", "y"]),
   ("longitud", ["longitud", "lon", "long", "lng", "longitude", "x"]),
   ("referencia", ["referencia", "referenciageografica", "ref", "refgeografica", "lugar", "place", "title", "location"])]

/-- `first_match(cols, columns)`: the first candidate that occurs in the
lowercased column-name list — Python's `c in columns` on a list is exact
membership, not substring containment. -/
def firstMatchName (cand cols : List String) : Option String :=
  cand.find? (fun c => cols.contains c)

/-- One iteration of the canonical-mapping loop: create the canonical
column as all-null when no candidate name occurs, else copy the matched
source column (`df.columns[columns_lower.index(idx)]`, resolved against
the input's column list). -/
def mapStep (cols0 colsLower : List String) (df : DF) (kc : String × List String) : DF :=
  match firstMatchName kc.2 colsLower with
  | none => df.setCol kc.1 (fun _ => .vNone)
  | some nm =>
    let src := cols0.getD (colsLower.findIdx (fun c => c == nm)) ""
    df.setCol kc.1 (fun r => rget r src)

/-- The canonical-mapping loop of `_normalize_df` (lines building `mapping`
and assigning `df[k]`). -/
def mapColumns (df0 : DF) : DF :=
  colmap.foldl (mapStep df0.cols (df0.cols.map lowerStr)) df0

/-- Option-to-cell for parsed numbers. -/
def optNumV : Option Rat → PyVal
  | none => .vNone
  | some q => .vNum q

/-- Option-to-cell for parsed timestamps. -/
def optTimeV : Option Int → PyVal
  | none => .vNone
  | some t => .vTime t

/-- The robust numeric parse: `df[k] = df[k].apply(_to_float)` over the
four numeric canonical columns. -/
def parseNumerics (df : DF) : DF :=
  ["magnitud", "profundidad", "latitud", "longitud"].foldl
    (fun d k => d.setCol k (fun r => optNumV (pyToFloat (rget r k)))) df

/-- `df["fecha_dt"] = df["fecha"].apply(parse_fecha)`. -/
def addFechaDt (df : DF) : DF :=
  df.setCol "fecha_dt" (fun r => optTimeV (parseFechaV (rget r "fecha")))

/-- `df = df.dropna(subset=["fecha_dt"]).copy()`. -/
def dropNaFecha (df : DF) : DF :=
  df.filterRows (fun r => match rget r "fecha_dt" with | .vNone => false | _ => true)

/-- The derived columns: `fecha_local` by `tz_convert`, then `dia` and
`hora` from it. -/
def addDerived (df : DF) : DF :=
  ((df.setCol "fecha_local" (fun r => tzConvertV (rget r "fecha_dt"))).setCol
      "dia" (fun r => diaV (rget r "fecha_local"))).setCol
    "hora" (fun r => horaV (rget r "fecha_local"))

/-- `df["referencia"] = df["referencia"].astype(str).fillna("")` — note
`astype(str)` turns a null cell into the string `"None"`, after which
`fillna` finds nothing null. -/
def fixReferencia (df : DF) : DF :=
  df.setCol "referencia" (fun r => .vStr (pyToStr (rget r "referencia")))

/-- Sort key of a row for `sort_values("fecha_dt", ascending=False)`: the
timestamp instant with NaT as bottom, matching pandas's `na_position`
default of placing NaT last in either direction. -/
def fdKey (v : PyVal) : WithBot Int :=
  match v with
  | .vTime t => (t : WithBot Int)
  | _ => ⊥

/-- Row `a` may precede row `b` in the descending sort: `b`'s key is at
most `a`'s. Adjacent rows of a `rowGe`-sorted list are exactly the claim's
`timestamp_utc[i] >= timestamp_utc[i+1]`, with NaT reading as bottom. -/
def rowGe (a b : Row) : Prop :=
  fdKey (rget b "fecha_dt") ≤ fdKey (rget a "fecha_dt")

instance : DecidableRel rowGe := fun a b =>
  inferInstanceAs (Decidable (fdKey (rget b "fecha_dt") ≤ fdKey (rget a "fecha_dt")))

instance : IsTotal Row rowGe :=
  ⟨fun a b => (le_total (fdKey (rget b "fecha_dt")) (fdKey (rget a "fecha_dt"))).imp id id⟩

instance : IsTrans Row rowGe :=
  ⟨fun _ _ _ h1 h2 => le_trans h2 h1⟩

/-- `df.sort_values("fecha_dt", ascending=False).reset_index(drop=True)`:
rows reordered descending by event time (NaT last); the index reset is a
no-op in this index-free model. -/
def sortByFechaDesc (df : DF) : DF :=
  { cols := df.cols, rows := List.insertionSort rowGe df.rows }

/-- `_normalize_df`, stage for stage in source order: canonical column
mapping, numeric parse, date parse, drop rows without a parsed date,
derived columns, `referencia` stringification, sort newest-first. -/
def normalizeDF (df : DF) : DF :=
  sortByFechaDesc (fixReferencia (addDerived (dropNaFecha (addFechaDt (parseNumerics (mapColumns df))))))

/-! ## The JSON adapters: `fetch_from_chilealerta`, `fetch_from_gael`

The HTTP transport is outside the embedding; each adapter's pure part
takes the decoded response body as a `Json` value. A raised Python
exception is an `Except.error`. -/

/-- A decoded JSON value as Python sees it. -/
inductive Json where
  | jNull : Json
  | jStr (s : String) : Json
  | jNum (q : Rat) : Json
  | jArr (xs : List Json) : Json
  | jObj (fs : List (String × Json)) : Json

/-- `dict.get(key)` — first binding wins, as dict keys are unique. -/
def getKey : List (String × Json) → String → Option Json
  | [], _ => none
  | (k, v) :: t, key => if k = key then some v else getKey t key

/-- The candidate wrapper keys tried by `fetch_from_chilealerta`, in
order. -/
def caKeys : List String :=
  ["data", "events", "sismos", "ultimos", "resultados", "result", "features", "earthquakes"]

/-- Shape detection of the ChileAlerta response: a list is used directly; a
dict yields the first nonempty list found under a candidate key, else is
wrapped as a one-element list; anything else raises. -/
def chileAlertaRaw (j : Json) : Except String (List Json) :=
  match j with
  | .jArr xs => .ok xs
  | .jObj fs =>
    match caKeys.findSome? (fun key =>
        match getKey fs key with
        | some (.jArr v) => if v.length > 0 then some v else none
        | _ => none) with
    | some v => .ok v
    | none => .ok [.jObj fs]
  | _ => .error "Respuesta inesperada de chilealerta.com"

/-- Cell value of a JSON scalar; the flat event objects these feeds return
have no nested values in the mapped fields, so nested values (which
`pd.json_normalize` would flatten or embed) are not given cell forms. -/
def pyOfJson : Json → PyVal
  | .jNull => .vNone
  | .jStr s => .vStr s
  | .jNum q => .vNum q
  | .jArr _ => .vNone
  | .jObj _ => .vNone

/-- Fields of an object, empty for non-objects. -/
def jsonFields : Json → List (String × Json)
  | .jObj fs => fs
  | _ => []

/-- `pd.json_normalize` column set: the union of the records' keys in
first-appearance order. -/
def colsUnion (objs : List Json) : List String :=
  objs.foldl
    (fun acc o => (jsonFields o).foldl
      (fun a kv => if kv.1 ∈ a then a else a ++ [kv.1]) acc) []

/-- One normalized row: every column, null where the record lacks the
key. -/
def rowOfJson (cols : List String) (o : Json) : Row :=
  cols.map (fun k =>
    (k, match getKey (jsonFields o) k with
        | some v => pyOfJson v
        | none => .vNone))

/-- `pd.json_normalize(raw)` on a list of flat records. -/
def jnormalize (objs : List Json) : DF :=
  let cs := colsUnion objs
  { cols := cs, rows := objs.map (rowOfJson cs) }

/-- `fetch_from_chilealerta` after transport: shape detection, then
`json_normalize`, then `_normalize_df`. -/
def fetchFromChileAlerta (j : Json) : Except String DF :=
  (chileAlertaRaw j).map (fun raw => normalizeDF (jnormalize raw))

/-- Whether a JSON value is an object (`dict`). -/
def isJObj : Json → Bool
  | .jObj _ => true
  | _ => false

/-- `{k.lower(): v for k, v in d.items()}`: keys case-folded, a later
duplicate overwriting an earlier one as dict construction does. -/
def lowerKeysObj (fs : List (String × Json)) : List (String × Json) :=
  fs.foldl
    (fun acc kv =>
      let k := lowerStr kv.1
      if (getKey acc k).isSome then acc.map (fun p => if p.1 = k then (k, kv.2) else p)
      else acc ++ [(k, kv.2)])
    []

/-- `fetch_from_gael` after transport: the response must be a list (of
dicts, or `.items()` raises), keys are lowercased, then `json_normalize`
and `_normalize_df`. -/
def fetchFromGael (j : Json) : Except String DF :=
  match j with
  | .jArr xs =>
    if xs.all isJObj then
      .ok (normalizeDF (jnormalize (xs.map (fun o => .jObj (lowerKeysObj (jsonFields o))))))
    else .error "AttributeError"
  | _ => .error "La API de GAEL no devolvió una lista de eventos."

/-! ## The scraping adapters' pure normalization stages

`fetch_from_evtdb` and `fetch_from_csn` first extract raw records from
HTML by regex; the transport and HTML traversal are outside the
embedding, so each build stage takes the extracted records. What the
extraction guarantees about each record is captured by the strict
pattern checkers below. -/

/-- Full match of the EVTDB anchor-date pattern
`\d{4}-\d{2}-\d{2} \d{2}:\d{2}:\d{2}` — every scraped `fecha` string
satisfies this, and nothing more. -/
def strictFechaPat (s : String) : Bool :=
  match s.data with
  | [y1, y2, y3, y4, c1, m1, m2, c2, d1, d2, sp, h1, h2, c3, i1, i2, c4, s1, s2] =>
    isDig y1 && isDig y2 && isDig y3 && isDig y4 && c1 = '-' && isDig m1 && isDig m2 &&
    c2 = '-' && isDig d1 && isDig d2 && sp = ' ' && isDig h1 && isDig h2 && c3 = ':' &&
    isDig i1 && isDig i2 && c4 = ':' && isDig s1 && isDig s2
  | _ => false

/-- One scraped EVTDB record: the anchor date text and the four numeric
fields the row-tail regex captured. -/
structure EvtRow where
  fecha : String
  latitud : Rat
  longitud : Rat
  profundidad : Rat
  magnitud : Rat
deriving DecidableEq, Repr

/-- The column selection shared by the EVTDB and CSN adapters' returns. -/
def scrapeCols : List String :=
  ["fecha_dt", "fecha_local", "magnitud", "profundidad", "latitud", "longitud", "referencia"]

/-- `df[keep]`: project onto the listed columns. -/
def selectCols (df : DF) (ks : List String) : DF :=
  { cols := ks, rows := df.rows.map (fun r => ks.map (fun k => (k, rget r k))) }

/-- The DataFrame `pd.DataFrame(rows)` built from the scraped EVTDB
records (`referencia` is always the empty string there). -/
def evtdbRawDF (rows : List EvtRow) : DF :=
  { cols := ["fecha", "latitud", "longitud", "profundidad", "magnitud", "referencia"],
    rows := rows.map (fun e =>
      [("fecha", .vStr e.fecha), ("latitud", .vNum e.latitud), ("longitud", .vNum e.longitud),
       ("profundidad", .vNum e.profundidad), ("magnitud", .vNum e.magnitud),
       ("referencia", .vStr "")]) }

/-- `fetch_from_evtdb` after scraping: empty record list returns the empty
frame with the fixed columns; otherwise the date is coerce-parsed (with no
`dropna`), `fecha_local`/`dia`/`hora` derived, the seven columns selected,
and the result sorted newest-first. -/
def evtdbBuild (rows : List EvtRow) : DF :=
  if rows.isEmpty then { cols := scrapeCols, rows := [] }
  else
    let df1 := (evtdbRawDF rows).setCol "fecha_dt"
      (fun r => optTimeV (parseFechaV (rget r "fecha")))
    let df2 := df1.setCol "fecha_local" (fun r => tzConvertV (rget r "fecha_dt"))
    let df3 := df2.setCol "dia" (fun r => diaV (rget r "fecha_local"))
    let df4 := df3.setCol "hora" (fun r => horaV (rget r "fecha_local"))
    sortByFechaDesc (selectCols df4 scrapeCols)

/-- One CSN catalog block as captured by the daily-page regex. -/
structure CsnRow where
  fechaLocalStr : String
  fechaUtcStr : String
  referencia : String
  latitud : Rat
  longitud : Rat
  profundidad : Rat
  magnitud : Rat
deriving DecidableEq, Repr

/-- The DataFrame built from the captured CSN blocks. -/
def csnRawDF (rows : List CsnRow) : DF :=
  { cols := ["fecha_local_str", "fecha_utc_str", "referencia", "latitud", "longitud",
             "profundidad", "magnitud"],
    rows := rows.map (fun e =>
      [("fecha_local_str", .vStr e.fechaLocalStr), ("fecha_utc_str", .vStr e.fechaUtcStr),
       ("referencia", .vStr e.referencia), ("latitud", .vNum e.latitud),
       ("longitud", .vNum e.longitud), ("profundidad", .vNum e.profundidad),
       ("magnitud", .vNum e.magnitud)]) }

/-- `tz_localize` of a coerce-parsed naive local string: NaT stays NaT,
a parsed wall-clock reading becomes the instant showing it in Chile. -/
def localizeV : PyVal → PyVal
  | .vStr s =>
    match parseDateStr s with
    | some w => .vTime (tzLocalizeSantiago w)
    | none => .vNone
  | .vTime t => .vTime t
  | _ => .vNone

/-- `fetch_from_csn` after scraping: `fecha_dt` coerce-parsed from the UTC
string (again with no `dropna`), `fecha_local` parsed independently from
the page's local string and localized (not converted from `fecha_dt`),
derived columns, the seven columns selected, sorted newest-first. -/
def csnBuild (rows : List CsnRow) : DF :=
  if rows.isEmpty then { cols := scrapeCols, rows := [] }
  else
    let df1 := (csnRawDF rows).setCol "fecha_dt"
      (fun r => optTimeV (parseFechaV (rget r "fecha_utc_str")))
    let df2 := df1.setCol "fecha_local" (fun r => localizeV (rget r "fecha_local_str"))
    let df3 := df2.setCol "dia" (fun r => diaV (rget r "fecha_local"))
    let df4 := df3.setCol "hora" (fun r => horaV (rget r "fecha_local"))
    sortByFechaDesc (selectCols df4 scrapeCols)

/-! ## The fetch orchestrator `fetch_sismos` -/

/-- The outcome of one adapter call: a returned table, or a raised
exception. -/
inductive FetchResult where
  | ok (df : DF) : FetchResult
  | err : FetchResult
deriving DecidableEq, Repr

/-- Success with a non-empty table. -/
def nonEmptyOk : FetchResult → Bool
  | .ok df => !df.rows.isEmpty
  | .err => false

/-- One `try: df = adapter(); if not df.empty: return df; except: pass`
step: keep a non-empty success, otherwise fall through to the
continuation. -/
def tryNext (r k : FetchResult) : FetchResult :=
  if nonEmptyOk r then r else k

/-- `fetch_sismos` over the four adapter outcomes in source order: EVTDB,
CSN, ChileAlerta each behind failure-tolerance, and the final GAEL call
returned as-is — not wrapped, so its error or empty table reaches the
caller. -/
def fetchSismos (evt csn ca gael : FetchResult) : FetchResult :=
  tryNext evt (tryNext csn (tryNext ca gael))

/-- Modelled from the spec: the orchestrator as §4.4 words it — first
adapter with a non-empty table wins, otherwise the last adapter's result
unconditionally. -/
def fetchSismosSpec (evt csn ca gael : FetchResult) : FetchResult :=
  if nonEmptyOk evt then evt
  else if nonEmptyOk csn then csn
  else if nonEmptyOk ca then ca
  else gael

/-! ## The filter `filter_sismos` -/

/-- Occurrence of `n` as a contiguous run inside `h`. -/
def leadsList : List Char → List Char → Bool
  | [], _ => true
  | _ :: _, [] => false
  | a :: n, b :: h => a == b && leadsList n h

/-- Substring occurrence check used by `.str.contains` on the plain
keywords this UI passes (no regex metacharacters). -/
def occursIn (n h : List Char) : Bool :=
  match h with
  | [] => n.isEmpty
  | c :: t => leadsList n (c :: t) || occursIn n t

/-- `out["magnitud"].fillna(-999)` on one cell: a present magnitude keeps
its value, a null one coalesces to the very low sentinel −999. -/
def fillnaMag : PyVal → Rat
  | .vNum q => q
  | _ => -999

/-- `fecha_dt >= d` on one cell: a NaT comparison is always false in
pandas, so null-dated rows fail any date bound. -/
def fechaGeBool (v : PyVal) (d : Int) : Bool :=
  match v with
  | .vTime t => d ≤ t
  | _ => false

/-- `fecha_dt <= d` on one cell. -/
def fechaLeBool (v : PyVal) (d : Int) : Bool :=
  match v with
  | .vTime t => t ≤ d
  | _ => false

/-- `filter_sismos`: each provided condition masks the rows in turn —
magnitude floor over the −999-coalesced magnitude, inclusive date window
over `fecha_dt`, and case-insensitive substring search over the
stringified `referencia` (skipped for the falsy empty keyword); the final
`reset_index` is a no-op in this index-free model. -/
def filterSismos (df : DF) (magMin : Option Rat) (fechaDesde fechaHasta : Option Int)
    (regionKeyword : String) : DF :=
  let out := df
  let out := match magMin with
    | some m => out.filterRows (fun r => decide (m ≤ fillnaMag (rget r "magnitud")))
    | none => out
  let out := match fechaDesde with
    | some d => out.filterRows (fun r => fechaGeBool (rget r "fecha_dt") d)
    | none => out
  let out := match fechaHasta with
    | some d => out.filterRows (fun r => fechaLeBool (rget r "fecha_dt") d)
    | none => out
  if regionKeyword ≠ "" then
    let rk := lowerStr (stripStr regionKeyword)
    out.filterRows (fun r => occursIn rk.data (lowerStr (pyToStr (rget r "referencia"))).data)
  else out

/-! ## Concrete fixtures used by scenario conjuncts and witnesses -/

/-- An empty table (no adapter rows). -/
def dfEmpty : DF := { cols := scrapeCols, rows := [] }

/-- A two-row table standing for the ChileAlerta result of the spec's
fallback scenario. -/
def caTwo : DF :=
  { cols := ["referencia"], rows := [[("referencia", .vStr "a")], [("referencia", .vStr "b")]] }

/-- A five-row table standing for the GAEL result of the spec's fallback
scenario. -/
def gaelFive : DF :=
  { cols := ["referencia"],
    rows := [[("referencia", .vStr "a")], [("referencia", .vStr "b")], [("referencia", .vStr "c")],
             [("referencia", .vStr "d")], [("referencia", .vStr "e")]] }

/-- A table with one null-magnitude row and one magnitude-5 row. -/
def dfNullMag : DF :=
  { cols := ["magnitud"], rows := [[("magnitud", .vNone)], [("magnitud", .vNum 5)]] }

/-- The spec's end-to-end ChileAlerta-shaped response. -/
def caJson : Json :=
  .jObj [("sismos", .jArr [.jObj
    [("Fecha", .jStr "2024-01-01T10:00:00Z"), ("Lat", .jStr "-33.45"),
     ("Lon", .jStr "-70.66"), ("Profundidad", .jStr "35 km"),
     ("Magnitud", .jStr "4,5"), ("Lugar", .jStr "Santiago")]])]

/-- An input table whose coordinate column is named `latdeg`: the name
contains the fragment `lat` but equals no candidate alias. -/
def latdegDF : DF :=
  { cols := ["fecha", "latdeg"],
    rows := [[("fecha", .vStr "2024-01-01T10:00:00Z"), ("latdeg", .vStr "-33.45")]] }

/-- An input table whose coordinate column `Lat` is (case-insensitively)
exactly a candidate alias. -/
def latExactDF : DF :=
  { cols := ["fecha", "Lat"],
    rows := [[("fecha", .vStr "2024-01-01T10:00:00Z"), ("Lat", .vStr "-33.45")]] }

/-- An input table with no coordinate column at all. -/
def noLatDF : DF :=
  { cols := ["fecha"], rows := [[("fecha", .vStr "2024-01-01T10:00:00Z")]] }

/-- A scraped EVTDB record whose date text is calendar-valid. -/
def evtOkRow : EvtRow := ⟨"2024-01-01 10:00:00", 1, 2, 3, 4⟩

/-- A scraped EVTDB record whose date text passes the strict scrape
pattern yet is calendar-invalid (month 13). -/
def evtBadRow : EvtRow := ⟨"2024-13-01 00:00:00", 1, 2, 3, 4⟩

/-- A CSN block whose local and UTC strings are mutually consistent for
the target zone. -/
def csnOkRow : CsnRow := ⟨"2024-01-01 06:00:00", "2024-01-01 10:00:00", "X", 1, 2, 3, 4⟩

/-- A CSN block whose local string equals its UTC string — inconsistent
with any nonzero zone offset. -/
def csnBadRow : CsnRow := ⟨"2024-01-01 10:00:00", "2024-01-01 10:00:00", "X", 1, 2, 3, 4⟩

/-! ## Properties the claims quantify over -/

/-- Every row of the table has a non-null, successfully parsed event
time. -/
def allRowsTimed (df : DF) : Prop :=
  ∀ r ∈ df.rows, ∃ t, rget r "fecha_dt" = PyVal.vTime t

/-- `allRowsTimed` for an adapter that may raise instead. -/
def exceptAllTimed : Except String DF → Prop
  | .ok df => allRowsTimed df
  | .error _ => True

/-- The table is sorted newest-first: every adjacent pair satisfies
`timestamp_utc[i] >= timestamp_utc[i+1]` under the `fdKey` order (NaT as
bottom, hence last). -/
def dfSortedDesc (df : DF) : Prop :=
  List.Chain' rowGe df.rows

/-- `dfSortedDesc` for an adapter that may raise instead. -/
def exceptSorted : Except String DF → Prop
  | .ok df => dfSortedDesc df
  | .error _ => True

/-- The row's `timestamp_local` equals its `timestamp_utc` converted to
the fixed target zone (NaT converting to NaT). -/
def rowLocalEqConverted (r : Row) : Prop :=
  rget r "fecha_local" = tzConvertV (rget r "fecha_dt")

/-- `rowLocalEqConverted` for every row of the table. -/
def allLocalConverted (df : DF) : Prop :=
  ∀ r ∈ df.rows, rowLocalEqConverted r

/-- `allLocalConverted` for an adapter that may raise instead. -/
def exceptLocalConverted : Except String DF → Prop
  | .ok df => allLocalConverted df
  | .error _ => True

/-- A CSN page block is consistent: localizing its local-time string
yields the same instant as its UTC string — what a correct upstream page
provides, and the condition under which the catalog adapter's
independently parsed `fecha_local` agrees with converting `fecha_dt`. -/
def csnConsistent (e : CsnRow) : Prop :=
  localizeV (.vStr e.fechaLocalStr) = tzConvertV (optTimeV (parseDateStr e.fechaUtcStr))

instance (e : CsnRow) : Decidable (csnConsistent e) := by
  unfold csnConsistent
  infer_instance

/-- Every canonical or derived column the normalized schema promises. -/
def canonicalCols : List String :=
  ["fecha", "magnitud", "profundidad", "latitud", "longitud", "referencia",
   "fecha_dt", "fecha_local", "dia", "hora"]

/-! ## Row and DataFrame access lemmas -/

theorem rget_replaceKey_self (v : PyVal) :
    ∀ (r : Row) (key : String), hasKey r key = true → rget (replaceKey r key v) key = v := by
  intro r key h
  induction r with
  | nil => simp [hasKey] at h
  | cons p t ih =>
    obtain ⟨k, w⟩ := p
    by_cases hk : k = key
    · subst hk
      simp [replaceKey, rget]
    · simp [hasKey, hk] at h
      simp [replaceKey, hk, rget, ih h]

theorem rget_append_single (v : PyVal) :
    ∀ (r : Row) (key : String), rget (r ++ [(key, v)]) key = if hasKey r key then rget r key else v := by
  intro r key
  induction r with
  | nil => simp [rget, hasKey]
  | cons p t ih =>
    obtain ⟨k, w⟩ := p
    by_cases hk : k = key
    · subst hk
      simp [rget, hasKey]
    · simp [rget, hasKey, hk, ih]

theorem rget_rset_self (r : Row) (key : String) (v : PyVal) : rget (rset r key v) key = v := by
  unfold rset
  by_cases h : hasKey r key
  · simp [h, rget_replaceKey_self]
  · simp [h, rget_append_single]

theorem rget_replaceKey_ne (v : PyVal) (hk : key' ≠ key) :
    ∀ r : Row, rget (replaceKey r key v) key' = rget r key' := by
  intro r
  induction r with
  | nil => simp [replaceKey]
  | cons p t ih =>
    obtain ⟨k, w⟩ := p
    by_cases h : k = key
    · subst h
      simp only [replaceKey, if_pos rfl, rget, if_neg (Ne.symm hk), ih]
    · simp only [replaceKey, if_neg h, rget, ih]

theorem rget_append_ne (v : PyVal) (hk : key' ≠ key) :
    ∀ r : Row, rget (r ++ [(key, v)]) key' = rget r key' := by
  intro r
  induction r with
  | nil => simp [rget, if_neg (Ne.symm hk)]
  | cons p t ih =>
    obtain ⟨k, w⟩ := p
    by_cases h2 : k = key'
    · simp [rget, h2]
    · simp [rget, h2, ih]

theorem rget_rset_ne (r : Row) (v : PyVal) (hk : key' ≠ key) :
    rget (rset r key v) key' = rget r key' := by
  unfold rset
  by_cases h : hasKey r key
  · simp [h, rget_replaceKey_ne v hk]
  · simp [h, rget_append_ne v hk]

theorem rget_selectRow (r : Row) :
    ∀ ks : List String, ∀ key ∈ ks, rget (ks.map (fun k => (k, rget r k))) key = rget r key := by
  intro ks
  induction ks with
  | nil => simp
  | cons k t ih =>
    intro key hkey
    by_cases h : k = key
    · subst h
      simp [rget]
    · rcases List.mem_cons.mp hkey with h' | h'
      · exact absurd h'.symm h
      · simp [rget, h, ih key h']

theorem mem_rows_setCol {df : DF} {k : String} {f : Row → PyVal} {r' : Row} :
    r' ∈ (df.setCol k f).rows ↔ ∃ r ∈ df.rows, r' = rset r k (f r) := by
  simp only [DF.setCol, List.mem_map]
  constructor
  · rintro ⟨r, hr, rfl⟩; exact ⟨r, hr, rfl⟩
  · rintro ⟨r, hr, rfl⟩; exact ⟨r, hr, rfl⟩

theorem mem_setCol_cols_self (df : DF) (k : String) (f : Row → PyVal) :
    k ∈ (df.setCol k f).cols := by
  simp only [DF.setCol]
  by_cases h : k ∈ df.cols <;> simp [h]

theorem setCol_cols_mono {df : DF} {x : String} (k : String) (f : Row → PyVal)
    (h : x ∈ df.cols) : x ∈ (df.setCol k f).cols := by
  simp only [DF.setCol]
  by_cases hk : k ∈ df.cols <;> simp [hk, h]

theorem sortByFechaDesc_cols (df : DF) : (sortByFechaDesc df).cols = df.cols := rfl

theorem mem_rows_sort {df : DF} {r : Row} :
    r ∈ (sortByFechaDesc df).rows ↔ r ∈ df.rows :=
  List.mem_insertionSort rowGe

theorem chain'_sortByFechaDesc (df : DF) : List.Chain' rowGe (sortByFechaDesc df).rows :=
  (List.sorted_insertionSort rowGe df.rows).chain'

/-! ## Tracking the event-time cells through the pipelines -/

theorem dropna_gives_time {df : DF} {r : Row}
    (h : r ∈ (dropNaFecha (addFechaDt df)).rows) :
    ∃ t, rget r "fecha_dt" = .vTime t := by
  obtain ⟨hmem, hpred⟩ := List.mem_filter.mp h
  obtain ⟨r0, _, rfl⟩ := mem_rows_setCol.mp hmem
  rw [rget_rset_self] at hpred ⊢
  cases ho : parseFechaV (rget r0 "fecha") with
  | none => rw [ho] at hpred; simp [optTimeV] at hpred
  | some t => exact ⟨t, rfl⟩

theorem mem_rows_normalize {df : DF} {r' : Row} (h : r' ∈ (normalizeDF df).rows) :
    ∃ r ∈ (dropNaFecha (addFechaDt (parseNumerics (mapColumns df)))).rows,
      rget r' "fecha_dt" = rget r "fecha_dt" ∧
      rget r' "fecha_local" = tzConvertV (rget r "fecha_dt") := by
  unfold normalizeDF at h
  replace h := mem_rows_sort.mp h
  unfold fixReferencia at h
  obtain ⟨r3, h3, rfl⟩ := mem_rows_setCol.mp h
  unfold addDerived at h3
  obtain ⟨r2, h2, rfl⟩ := mem_rows_setCol.mp h3
  obtain ⟨r1, h1, rfl⟩ := mem_rows_setCol.mp h2
  obtain ⟨r0, h0, rfl⟩ := mem_rows_setCol.mp h1
  refine ⟨r0, h0, ?_, ?_⟩
  · rw [rget_rset_ne _ _ (by decide), rget_rset_ne _ _ (by decide),
      rget_rset_ne _ _ (by decide), rget_rset_ne _ _ (by decide)]
  · rw [rget_rset_ne _ _ (by decide), rget_rset_ne _ _ (by decide),
      rget_rset_ne _ _ (by decide), rget_rset_self]

theorem mem_rows_evtdbBuild {rows : List EvtRow} {r' : Row}
    (h : r' ∈ (evtdbBuild rows).rows) :
    ∃ e ∈ rows, rget r' "fecha_dt" = optTimeV (parseDateStr e.fecha) ∧
      rget r' "fecha_local" = tzConvertV (optTimeV (parseDateStr e.fecha)) := by
  unfold evtdbBuild at h
  by_cases hne : rows.isEmpty
  · simp [hne] at h
  · simp only [hne, if_false] at h
    replace h := mem_rows_sort.mp h
    simp only [selectCols, List.mem_map] at h
    obtain ⟨r4, h4, rfl⟩ := h
    obtain ⟨r3, h3, rfl⟩ := mem_rows_setCol.mp h4
    obtain ⟨r2, h2, rfl⟩ := mem_rows_setCol.mp h3
    obtain ⟨r1, h1, rfl⟩ := mem_rows_setCol.mp h2
    obtain ⟨r0, h0, rfl⟩ := mem_rows_setCol.mp h1
    simp only [evtdbRawDF, List.mem_map] at h0
    obtain ⟨e, he, rfl⟩ := h0
    have hfecha : rget [("fecha", PyVal.vStr e.fecha), ("latitud", PyVal.vNum e.latitud),
        ("longitud", PyVal.vNum e.longitud), ("profundidad", PyVal.vNum e.profundidad),
        ("magnitud", PyVal.vNum e.magnitud), ("referencia", PyVal.vStr "")] "fecha" =
        PyVal.vStr e.fecha := by
      simp [rget]
    refine ⟨e, he, ?_, ?_⟩
    · rw [rget_selectRow _ scrapeCols "fecha_dt" (by decide),
        rget_rset_ne _ _ (by decide), rget_rset_ne _ _ (by decide),
        rget_rset_ne _ _ (by decide), rget_rset_self, hfecha]
      rfl
    · rw [rget_selectRow _ scrapeCols "fecha_local" (by decide),
        rget_rset_ne _ _ (by decide), rget_rset_ne _ _ (by decide), rget_rset_self,
        rget_rset_self, hfecha]
      rfl

theorem mem_rows_csnBuild {rows : List CsnRow} {r' : Row}
    (h : r' ∈ (csnBuild rows).rows) :
    ∃ e ∈ rows, rget r' "fecha_dt" = optTimeV (parseDateStr e.fechaUtcStr) ∧
      rget r' "fecha_local" = localizeV (.vStr e.fechaLocalStr) := by
  unfold csnBuild at h
  by_cases hne : rows.isEmpty
  · simp [hne] at h
  · simp only [hne, if_false] at h
    replace h := mem_rows_sort.mp h
    simp only [selectCols, List.mem_map] at h
    obtain ⟨r4, h4, rfl⟩ := h
    obtain ⟨r3, h3, rfl⟩ := mem_rows_setCol.mp h4
    obtain ⟨r2, h2, rfl⟩ := mem_rows_setCol.mp h3
    obtain ⟨r1, h1, rfl⟩ := mem_rows_setCol.mp h2
    obtain ⟨r0, h0, rfl⟩ := mem_rows_setCol.mp h1
    simp only [csnRawDF, List.mem_map] at h0
    obtain ⟨e, he, rfl⟩ := h0
    have hutc : rget [("fecha_local_str", PyVal.vStr e.fechaLocalStr),
        ("fecha_utc_str", PyVal.vStr e.fechaUtcStr), ("referencia", PyVal.vStr e.referencia),
        ("latitud", PyVal.vNum e.latitud), ("longitud", PyVal.vNum e.longitud),
        ("profundidad", PyVal.vNum e.profundidad), ("magnitud", PyVal.vNum e.magnitud)]
        "fecha_utc_str" = PyVal.vStr e.fechaUtcStr := by
      simp [rget]
    have hloc : rget [("fecha_local_str", PyVal.vStr e.fechaLocalStr),
        ("fecha_utc_str", PyVal.vStr e.fechaUtcStr), ("referencia", PyVal.vStr e.referencia),
        ("latitud", PyVal.vNum e.latitud), ("longitud", PyVal.vNum e.longitud),
        ("profundidad", PyVal.vNum e.profundidad), ("magnitud", PyVal.vNum e.magnitud)]
        "fecha_local_str" = PyVal.vStr e.fechaLocalStr := by
      simp [rget]
    refine ⟨e, he, ?_, ?_⟩
    · rw [rget_selectRow _ scrapeCols "fecha_dt" (by decide),
        rget_rset_ne _ _ (by decide), rget_rset_ne _ _ (by decide),
        rget_rset_ne _ _ (by decide), rget_rset_self, hutc]
      rfl
    · rw [rget_selectRow _ scrapeCols "fecha_local" (by decide),
        rget_rset_ne _ _ (by decide), rget_rset_ne _ _ (by decide), rget_rset_self,
        rget_rset_ne _ _ (by decide), hloc]

/-! ## The canonical-mapping loop: column creation and null filling -/

theorem mapStep_cols_mono {df : DF} {x : String} (c0 cl : List String)
    (kc : String × List String) (h : x ∈ df.cols) : x ∈ (mapStep c0 cl df kc).cols := by
  unfold mapStep
  cases firstMatchName kc.2 cl with
  | none => exact setCol_cols_mono _ _ h
  | some nm => exact setCol_cols_mono _ _ h

theorem mapStep_cols_self (c0 cl : List String) (df : DF) (kc : String × List String) :
    kc.1 ∈ (mapStep c0 cl df kc).cols := by
  unfold mapStep
  cases firstMatchName kc.2 cl with
  | none => exact mem_setCol_cols_self _ _ _
  | some nm => exact mem_setCol_cols_self _ _ _

theorem foldl_mapStep_cols_mono (c0 cl : List String) :
    ∀ (l : List (String × List String)) (df : DF) (x : String), x ∈ df.cols →
      x ∈ (l.foldl (mapStep c0 cl) df).cols := by
  intro l
  induction l with
  | nil => intro df x h; exact h
  | cons kc t ih =>
    intro df x h
    exact ih _ x (mapStep_cols_mono c0 cl kc h)

theorem foldl_mapStep_cols_mem (c0 cl : List String) :
    ∀ (l : List (String × List String)) (df : DF) (k : String) (cand : List String),
      (k, cand) ∈ l → k ∈ (l.foldl (mapStep c0 cl) df).cols := by
  intro l
  induction l with
  | nil => intro df k cand h; exact absurd h (List.not_mem_nil _)
  | cons kc t ih =>
    intro df k cand h
    rcases List.mem_cons.mp h with h | h
    · cases h
      exact foldl_mapStep_cols_mono c0 cl t _ k (mapStep_cols_self c0 cl df (k, cand))
    · exact ih _ k cand h

theorem mapStep_rget_of_ne {c0 cl : List String} {df : DF} {kc : String × List String}
    {key : String} (hne : kc.1 ≠ key) {r' : Row} (h : r' ∈ (mapStep c0 cl df kc).rows) :
    ∃ r ∈ df.rows, rget r' key = rget r key := by
  unfold mapStep at h
  cases hf : firstMatchName kc.2 cl with
  | none =>
    rw [hf] at h
    obtain ⟨r, hr, rfl⟩ := mem_rows_setCol.mp h
    exact ⟨r, hr, rget_rset_ne _ _ (Ne.symm hne)⟩
  | some nm =>
    rw [hf] at h
    obtain ⟨r, hr, rfl⟩ := mem_rows_setCol.mp h
    exact ⟨r, hr, rget_rset_ne _ _ (Ne.symm hne)⟩

theorem foldl_mapStep_rget_of_not_mem (c0 cl : List String) :
    ∀ (l : List (String × List String)) (df : DF) (key : String),
      key ∉ l.map Prod.fst → ∀ r' ∈ (l.foldl (mapStep c0 cl) df).rows,
      ∃ r ∈ df.rows, rget r' key = rget r key := by
  intro l
  induction l with
  | nil => intro df key _ r' h; exact ⟨r', h, rfl⟩
  | cons kc t ih =>
    intro df key hkey r' h
    simp only [List.map_cons, List.mem_cons, not_or] at hkey
    obtain ⟨r1, hr1, heq⟩ := ih (mapStep c0 cl df kc) key hkey.2 r' h
    obtain ⟨r0, hr0, heq0⟩ := mapStep_rget_of_ne (fun hc => hkey.1 hc.symm) hr1
    exact ⟨r0, hr0, heq.trans heq0⟩

theorem foldl_mapStep_null (c0 cl : List String) :
    ∀ (l : List (String × List String)) (df : DF) (key : String) (cand : List String),
      (key, cand) ∈ l → (l.map Prod.fst).Nodup → firstMatchName cand cl = none →
      ∀ r' ∈ (l.foldl (mapStep c0 cl) df).rows, rget r' key = .vNone := by
  intro l
  induction l with
  | nil => intro df key cand h; exact absurd h (List.not_mem_nil _)
  | cons kc t ih =>
    intro df key cand hmem hnd hnone r' h
    rcases List.mem_cons.mp hmem with hh | hh
    · have hk1 : kc.1 = key := by rw [← hh]
      have hnotin : key ∉ t.map Prod.fst := by
        have := (List.nodup_cons.mp hnd).1
        rwa [hk1] at this
      obtain ⟨r1, hr1, heq⟩ :=
        foldl_mapStep_rget_of_not_mem c0 cl t (mapStep c0 cl df kc) key hnotin r' h
      have hstep : rget r1 key = .vNone := by
        unfold mapStep at hr1
        have hcand : kc.2 = cand := by rw [← hh]
        rw [hk1, hcand, hnone] at hr1
        obtain ⟨r0, _, rfl⟩ := mem_rows_setCol.mp hr1
        exact rget_rset_self r0 key .vNone
      exact heq.trans hstep
    · exact ih (mapStep c0 cl df kc) key cand hh (List.nodup_cons.mp hnd).2 hnone r' h

/-! ## Column presence through the later normalizer stages -/

theorem parseNumerics_cols_mono {df : DF} {x : String} (h : x ∈ df.cols) :
    x ∈ (parseNumerics df).cols := by
  unfold parseNumerics
  simp only [List.foldl]
  exact setCol_cols_mono _ _ (setCol_cols_mono _ _ (setCol_cols_mono _ _ (setCol_cols_mono _ _ h)))

theorem addFechaDt_cols_mono {df : DF} {x : String} (h : x ∈ df.cols) :
    x ∈ (addFechaDt df).cols :=
  setCol_cols_mono _ _ h

theorem normalize_cols_of_mapped {df : DF} {x : String}
    (h : x ∈ (mapColumns df).cols) : x ∈ (normalizeDF df).cols := by
  unfold normalizeDF fixReferencia addDerived dropNaFecha
  rw [sortByFechaDesc_cols]
  refine setCol_cols_mono _ _ (setCol_cols_mono _ _ (setCol_cols_mono _ _ (setCol_cols_mono _ _ ?_)))
  show x ∈ (addFechaDt (parseNumerics (mapColumns df))).cols
  exact addFechaDt_cols_mono (parseNumerics_cols_mono h)

/-! ## The search loop of the numeric parser: leftmost-match semantics -/

theorem floatSearch_eq_none_iff :
    ∀ l : List Char, floatSearch l = none ↔ ∀ i, matchAt (l.drop i) = none := by
  intro l
  induction l with
  | nil =>
    simp only [floatSearch, List.drop_nil, true_iff]
    intro i
    rfl
  | cons c t ih =>
    constructor
    · intro h i
      cases hm : matchAt (c :: t) with
      | some tok => simp [floatSearch, hm] at h
      | none =>
        cases i with
        | zero => exact hm
        | succ j =>
          have ht : floatSearch t = none := by
            simpa [floatSearch, hm] using h
          exact (ih.mp ht) j
    · intro h
      have hm : matchAt (c :: t) = none := h 0
      have ht : floatSearch t = none := ih.mpr (fun j => h (j + 1))
      simp [floatSearch, hm, ht]

theorem floatSearch_leftmost :
    ∀ (l : List Char) (tok : List Char), floatSearch l = some tok →
      ∃ i, matchAt (l.drop i) = some tok ∧ ∀ j < i, matchAt (l.drop j) = none := by
  intro l
  induction l with
  | nil => intro tok h; simp [floatSearch] at h
  | cons c t ih =>
    intro tok h
    cases hm : matchAt (c :: t) with
    | some tok' =>
      have : tok' = tok := by simpa [floatSearch, hm] using h
      subst this
      exact ⟨0, hm, fun j hj => absurd hj (Nat.not_lt_zero j)⟩
    | none =>
      have ht : floatSearch t = some tok := by simpa [floatSearch, hm] using h
      obtain ⟨i, h1, h2⟩ := ih tok ht
      refine ⟨i + 1, h1, ?_⟩
      intro j hj
      cases j with
      | zero => exact hm
      | succ j' => exact h2 j' (Nat.lt_of_succ_lt_succ hj)

theorem pyToFloat_vStr (s : String) : pyToFloat (.vStr s) = toFloatStr s := rfl

/-! ## Adapter result shapes and derived-column presence -/

theorem fetchFromChileAlerta_shape (j : Json) :
    (∃ df0, fetchFromChileAlerta j = .ok (normalizeDF df0)) ∨
      ∃ e, fetchFromChileAlerta j = .error e := by
  unfold fetchFromChileAlerta
  cases chileAlertaRaw j with
  | ok raw => exact Or.inl ⟨jnormalize raw, rfl⟩
  | error e => exact Or.inr ⟨e, rfl⟩

theorem fetchFromGael_shape (j : Json) :
    (∃ df0, fetchFromGael j = .ok (normalizeDF df0)) ∨
      ∃ e, fetchFromGael j = .error e := by
  cases j with
  | jArr xs =>
    by_cases hx : xs.all isJObj
    · exact Or.inl ⟨jnormalize (xs.map (fun o => .jObj (lowerKeysObj (jsonFields o)))),
        by simp [fetchFromGael, hx]⟩
    · exact Or.inr ⟨"AttributeError", by simp [fetchFromGael, hx]⟩
  | jNull => exact Or.inr ⟨_, rfl⟩
  | jStr s => exact Or.inr ⟨_, rfl⟩
  | jNum q => exact Or.inr ⟨_, rfl⟩
  | jObj fs => exact Or.inr ⟨_, rfl⟩

theorem normalize_cols_tail (df : DF) :
    "fecha_dt" ∈ (normalizeDF df).cols ∧ "fecha_local" ∈ (normalizeDF df).cols ∧
    "dia" ∈ (normalizeDF df).cols ∧ "hora" ∈ (normalizeDF df).cols := by
  unfold normalizeDF fixReferencia addDerived
  rw [sortByFechaDesc_cols]
  refine ⟨?_, ?_, ?_, ?_⟩
  · have h1 : "fecha_dt" ∈ (addFechaDt (parseNumerics (mapColumns df))).cols :=
      mem_setCol_cols_self _ _ _
    exact setCol_cols_mono _ _ (setCol_cols_mono _ _ (setCol_cols_mono _ _
      (setCol_cols_mono _ _ h1)))
  · exact setCol_cols_mono _ _ (setCol_cols_mono _ _ (setCol_cols_mono _ _
      (mem_setCol_cols_self _ _ _)))
  · exact setCol_cols_mono _ _ (setCol_cols_mono _ _ (mem_setCol_cols_self _ _ _))
  · exact setCol_cols_mono _ _ (mem_setCol_cols_self _ _ _)

/-! ## The claims -/

/-- C1: the fetch orchestrator attempts the adapters in the fixed order
EVTDB, Catalog (CSN), ChileAlerta, GAEL, returning the first non-empty
table; an adapter that raises or returns an empty table is skipped; once
the first three are exhausted the last (GAEL) result is returned
unconditionally, its error or empty table propagating to the caller. The
conjuncts: the chain equals its first-success-wins specification, the
terminal fallback is returned as-is whenever the first three fail, and
the spec's fallback scenario (EVTDB and CSN raise, ChileAlerta has 2
rows, GAEL has 5) yields the ChileAlerta table. -/
theorem c1_orchestrator :
    (∀ evt csn ca gael, fetchSismos evt csn ca gael = fetchSismosSpec evt csn ca gael) ∧
    (∀ evt csn ca gael, nonEmptyOk evt = false → nonEmptyOk csn = false →
      nonEmptyOk ca = false → fetchSismos evt csn ca gael = gael) ∧
    fetchSismos .err .err (.ok caTwo) (.ok gaelFive) = .ok caTwo ∧
    caTwo.rows.length = 2 ∧ gaelFive.rows.length = 5 := by
  refine ⟨fun _ _ _ _ => rfl, ?_, by decide, by decide, by decide⟩
  intro evt csn ca gael h1 h2 h3
  simp [fetchSismos, tryNext, h1, h2, h3]

/-- Witness for C1: with the first three adapters exhausted (an error,
an empty table, an error), the GAEL result is returned unconditionally. -/
theorem c1_orchestrator_witness :
    fetchSismos .err (.ok dfEmpty) .err (.ok gaelFive) = .ok gaelFive :=
  c1_orchestrator.2.1 _ _ _ _ (by decide) (by decide) (by decide)

/-- C5: the numeric parser `_to_float` is total (always returns null or a
number, never raising), returns null exactly for null input or text with
no match of the number pattern anywhere, returns the value of the
leftmost pattern match otherwise, and maps `"5,3"`, `"5.3"` and
`"mag 5.3 km"` each to 5.3. -/
theorem c5_to_float :
    (∀ v, pyToFloat v = none ∨ ∃ q, pyToFloat v = some q) ∧
    pyToFloat .vNone = none ∧
    (∀ s : String, pyToFloat (.vStr s) = none ↔ ∀ i, matchAt (s.data.drop i) = none) ∧
    (∀ (s : String) (tok : List Char), floatSearch s.data = some tok →
      pyToFloat (.vStr s) = some (tokVal tok) ∧
      ∃ i, matchAt (s.data.drop i) = some tok ∧ ∀ j < i, matchAt (s.data.drop j) = none) ∧
    pyToFloat (.vStr "5,3") = some (5.3 : Rat) ∧
    pyToFloat (.vStr "5.3") = some (5.3 : Rat) ∧
    pyToFloat (.vStr "mag 5.3 km") = some (5.3 : Rat) := by
  refine ⟨?_, rfl, ?_, ?_, by decide, by decide, by decide⟩
  · intro v
    cases h : pyToFloat v with
    | none => exact Or.inl rfl
    | some q => exact Or.inr ⟨q, rfl⟩
  · intro s
    rw [pyToFloat_vStr]
    unfold toFloatStr
    cases h : floatSearch s.data with
    | none =>
      simp only [true_iff]
      exact (floatSearch_eq_none_iff s.data).mp h
    | some tok =>
      simp only [reduceCtorEq, false_iff, not_forall]
      obtain ⟨i, h1, _⟩ := floatSearch_leftmost s.data tok h
      exact ⟨i, by simp [h1]⟩
  · intro s tok h
    refine ⟨?_, floatSearch_leftmost s.data tok h⟩
    rw [pyToFloat_vStr]
    unfold toFloatStr
    rw [h]

/-- Witness for C5: the leftmost-match conjunct applied to
`"mag 5.3 km"`, whose first pattern match is the token `5.3`. -/
theorem c5_to_float_witness :
    pyToFloat (.vStr "mag 5.3 km") = some (tokVal ['5', '.', '3']) ∧
    ∃ i, matchAt (("mag 5.3 km" : String).data.drop i) = some ['5', '.', '3'] ∧
      ∀ j < i, matchAt (("mag 5.3 km" : String).data.drop j) = none :=
  c5_to_float.2.2.2.1 "mag 5.3 km" ['5', '.', '3'] (by decide)

/-- C6: in `filter_sismos`, a null magnitude coalesces to the very low
sentinel −999 for the comparison, so it fails every strictly-positive
magnitude floor: no row surviving a `mag_min > 0` filter has a null
magnitude. -/
theorem c6_null_mag_excluded :
    fillnaMag .vNone = -999 ∧
    ∀ (df : DF) (m : Rat), 0 < m →
      ∀ r ∈ (filterSismos df (some m) none none "").rows, rget r "magnitud" ≠ .vNone := by
  refine ⟨rfl, ?_⟩
  intro df m hm r hr hnull
  have hr' : r ∈ df.rows.filter (fun r => decide (m ≤ fillnaMag (rget r "magnitud"))) := by
    simpa [filterSismos, DF.filterRows] using hr
  have hp := (List.mem_filter.mp hr').2
  have hle : m ≤ fillnaMag (rget r "magnitud") := of_decide_eq_true hp
  rw [hnull] at hle
  have : m ≤ (-999 : Rat) := hle
  linarith

/-- Witness for C6: in a table with a null-magnitude row, filtering with
`mag_min = 3` leaves no null-magnitude row. -/
theorem c6_null_mag_excluded_witness :
    ∀ r ∈ (filterSismos dfNullMag (some 3) none none "").rows, rget r "magnitud" ≠ .vNone :=
  c6_null_mag_excluded.2 dfNullMag 3 (by norm_num)

/-- C9: filtering with no parameters provided (no magnitude floor, no
window bounds, empty location keyword) returns the input table
unchanged: same rows, same order. -/
theorem c9_filter_no_params : ∀ df : DF, filterSismos df none none none "" = df := by
  intro df
  simp [filterSismos]

/-- C3: every table any of the four adapters or the normalizer produces
is sorted by `fecha_dt` descending, newest first: adjacent rows satisfy
`timestamp_utc[i] >= timestamp_utc[i+1]` (under the sort key's order,
which places a null time last, as pandas places NaT). -/
theorem c3_sorted_desc :
    (∀ df, dfSortedDesc (normalizeDF df)) ∧
    (∀ rows : List EvtRow, dfSortedDesc (evtdbBuild rows)) ∧
    (∀ rows : List CsnRow, dfSortedDesc (csnBuild rows)) ∧
    (∀ j, exceptSorted (fetchFromChileAlerta j)) ∧
    (∀ j, exceptSorted (fetchFromGael j)) := by
  refine ⟨?_, ?_, ?_, ?_, ?_⟩
  · intro df
    exact chain'_sortByFechaDesc _
  · intro rows
    unfold dfSortedDesc evtdbBuild
    by_cases h : rows.isEmpty
    · rw [if_pos h]
      exact List.chain'_nil
    · rw [if_neg h]
      exact chain'_sortByFechaDesc _
  · intro rows
    unfold dfSortedDesc csnBuild
    by_cases h : rows.isEmpty
    · rw [if_pos h]
      exact List.chain'_nil
    · rw [if_neg h]
      exact chain'_sortByFechaDesc _
  · intro j
    rcases fetchFromChileAlerta_shape j with ⟨df0, h⟩ | ⟨e, h⟩
    · rw [h]
      exact chain'_sortByFechaDesc _
    · rw [h]
      trivial
  · intro j
    rcases fetchFromGael_shape j with ⟨df0, h⟩ | ⟨e, h⟩
    · rw [h]
      exact chain'_sortByFechaDesc _
    · rw [h]
      trivial

/-- C2 (amended): every row of every table produced by the normalizer —
hence by the ChileAlerta and GAEL adapters — has a non-null, successfully
parsed event time, rows failing the date parse being dropped before
return. For the EVTDB and CSN adapters the extraction guarantees only
that each date string matches the strict scrape pattern; their builds
run the coercing date parse with no subsequent drop, so every row has a
non-null event time whenever every scraped date string actually parses,
while a pattern-matching but calendar-invalid date string yields a kept
row with a null event time (see the counterexample). -/
theorem c2_times_amended :
    (∀ df, allRowsTimed (normalizeDF df)) ∧
    (∀ j, exceptAllTimed (fetchFromChileAlerta j)) ∧
    (∀ j, exceptAllTimed (fetchFromGael j)) ∧
    (∀ rows : List EvtRow, (∀ e ∈ rows, (parseDateStr e.fecha).isSome) →
      allRowsTimed (evtdbBuild rows)) ∧
    (∀ rows : List CsnRow, (∀ e ∈ rows, (parseDateStr e.fechaUtcStr).isSome) →
      allRowsTimed (csnBuild rows)) := by
  have hnorm : ∀ df, allRowsTimed (normalizeDF df) := by
    intro df r hr
    obtain ⟨r0, h0, hdt, _⟩ := mem_rows_normalize hr
    obtain ⟨t, ht⟩ := dropna_gives_time h0
    exact ⟨t, hdt.trans ht⟩
  refine ⟨hnorm, ?_, ?_, ?_, ?_⟩
  · intro j
    rcases fetchFromChileAlerta_shape j with ⟨df0, h⟩ | ⟨e, h⟩
    · rw [h]
      exact hnorm df0
    · rw [h]
      trivial
  · intro j
    rcases fetchFromGael_shape j with ⟨df0, h⟩ | ⟨e, h⟩
    · rw [h]
      exact hnorm df0
    · rw [h]
      trivial
  · intro rows hall r hr
    obtain ⟨e, he, hdt, _⟩ := mem_rows_evtdbBuild hr
    obtain ⟨t, ht⟩ := Option.isSome_iff_exists.mp (hall e he)
    rw [ht] at hdt
    exact ⟨t, hdt⟩
  · intro rows hall r hr
    obtain ⟨e, he, hdt, _⟩ := mem_rows_csnBuild hr
    obtain ⟨t, ht⟩ := Option.isSome_iff_exists.mp (hall e he)
    rw [ht] at hdt
    exact ⟨t, hdt⟩

/-- Counterexample for C2 as stated: `"2024-13-01 00:00:00"` satisfies
the strict EVTDB anchor pattern, so it can be scraped, yet its coerced
parse is NaT (month 13); the EVTDB build returns that row with a null
event time instead of excluding it. -/
theorem c2_times_cex :
    strictFechaPat "2024-13-01 00:00:00" = true ∧
    parseDateStr "2024-13-01 00:00:00" = none ∧
    (evtdbBuild [evtBadRow]).rows.length = 1 ∧
    (evtdbBuild [evtBadRow]).rows.map (fun r => rget r "fecha_dt") = [PyVal.vNone] := by
  refine ⟨by decide, by decide, by decide, by decide⟩

/-- Witness for C2 (amended): the EVTDB conjunct at a single valid
scraped record. -/
theorem c2_times_amended_witness : allRowsTimed (evtdbBuild [evtOkRow]) :=
  c2_times_amended.2.2.2.1 [evtOkRow] (by decide)

/-- C4 (amended): the normalizer — hence the ChileAlerta and GAEL
adapters — and the EVTDB adapter set `timestamp_local` exactly by
converting `timestamp_utc` to the fixed target zone. The CSN adapter
instead parses `timestamp_local` independently from the page's local-time
string, so for it the equality holds exactly when each scraped block's
local/UTC pair is consistent with the zone conversion (see the
counterexample for an inconsistent block). -/
theorem c4_local_amended :
    (∀ df, allLocalConverted (normalizeDF df)) ∧
    (∀ j, exceptLocalConverted (fetchFromChileAlerta j)) ∧
    (∀ j, exceptLocalConverted (fetchFromGael j)) ∧
    (∀ rows : List EvtRow, allLocalConverted (evtdbBuild rows)) ∧
    (∀ rows : List CsnRow, (∀ e ∈ rows, csnConsistent e) →
      allLocalConverted (csnBuild rows)) := by
  have hnorm : ∀ df, allLocalConverted (normalizeDF df) := by
    intro df r hr
    obtain ⟨r0, _, hdt, hfl⟩ := mem_rows_normalize hr
    unfold rowLocalEqConverted
    rw [hfl, hdt]
  refine ⟨hnorm, ?_, ?_, ?_, ?_⟩
  · intro j
    rcases fetchFromChileAlerta_shape j with ⟨df0, h⟩ | ⟨e, h⟩
    · rw [h]
      exact hnorm df0
    · rw [h]
      trivial
  · intro j
    rcases fetchFromGael_shape j with ⟨df0, h⟩ | ⟨e, h⟩
    · rw [h]
      exact hnorm df0
    · rw [h]
      trivial
  · intro rows r hr
    obtain ⟨e, _, hdt, hfl⟩ := mem_rows_evtdbBuild hr
    unfold rowLocalEqConverted
    rw [hfl, hdt]
  · intro rows hcons r hr
    obtain ⟨e, he, hdt, hfl⟩ := mem_rows_csnBuild hr
    have h2 : localizeV (.vStr e.fechaLocalStr) =
        tzConvertV (optTimeV (parseDateStr e.fechaUtcStr)) := hcons e he
    unfold rowLocalEqConverted
    rw [hfl, h2, hdt]

/-- Counterexample for C4 as stated: a CSN block whose local string
equals its UTC string (inconsistent with the zone's nonzero offset)
yields a row whose `fecha_local` instant differs from `fecha_dt` — the
adapter never converts, it re-parses the page's local text. -/
theorem c4_local_cex :
    (csnBuild [csnBadRow]).rows.map (fun r => (rget r "fecha_dt", rget r "fecha_local")) =
      [(PyVal.vTime 1704103200, PyVal.vTime 1704117600)] ∧
    PyVal.vTime 1704117600 ≠ tzConvertV (PyVal.vTime 1704103200) := by
  refine ⟨by decide, by decide⟩

/-- Witness for C4 (amended): the CSN conjunct at a single consistent
block. -/
theorem c4_local_amended_witness : allLocalConverted (csnBuild [csnOkRow]) :=
  c4_local_amended.2.2.2.2 [csnOkRow] (by decide)

/-- C7 (amended): the normalizer's column mapping is decided by
case-insensitive EXACT equality against each canonical field's fixed
candidate alias list — Python's `c in columns` on the lowercased
column-name list — not by substring match: when no candidate name equals
a (lowercased) input column name the canonical field is created all-null,
even if some column name merely contains a candidate as a fragment; a
column that equals an alias case-insensitively (here `Lat`) is mapped. -/
theorem c7_mapping_amended :
    (∀ (df : DF) (k : String) (cand : List String), (k, cand) ∈ colmap →
      firstMatchName cand (df.cols.map lowerStr) = none →
      ∀ r ∈ (mapColumns df).rows, rget r k = PyVal.vNone) ∧
    (normalizeDF latExactDF).rows.map (fun r => rget r "latitud") =
      [PyVal.vNum (-33.45 : Rat)] := by
  constructor
  · intro df k cand hmem hnone r hr
    exact foldl_mapStep_null df.cols (df.cols.map lowerStr) colmap df k cand hmem
      (by decide) hnone r hr
  · decide

/-- Counterexample for C7 as stated: the column name `latdeg` contains
the fragment `lat` and holds a parseable coordinate, yet the normalizer
maps nothing to `latitud` (its sole row comes out null) because `latdeg`
equals no candidate alias exactly. -/
theorem c7_mapping_cex :
    occursIn "lat".data (lowerStr "latdeg").data = true ∧
    pyToFloat (.vStr "-33.45") = some (-33.45 : Rat) ∧
    (normalizeDF latdegDF).rows.length = 1 ∧
    (normalizeDF latdegDF).rows.map (fun r => rget r "latitud") = [PyVal.vNone] := by
  refine ⟨by decide, by decide, by decide, by decide⟩

/-- Witness for C7 (amended): the all-null conjunct at the `latdeg`
table and the `latitud` field. -/
theorem c7_mapping_amended_witness :
    ∀ r ∈ (mapColumns latdegDF).rows, rget r "latitud" = PyVal.vNone :=
  c7_mapping_amended.1 latdegDF "latitud" ["latitud", "lat", "latitude", "y"]
    (by decide) (by decide)

/-- C8: the ChileAlerta-shaped response wrapping one record under the
`sismos` key normalizes, through shape detection and the normalizer, to
exactly one row with `latitude = -33.45`, `longitude = -70.66`,
`depth_km = 35.0` (units stripped), `magnitude = 4.5` (comma decimal
separator), `reference = "Santiago"`. -/
theorem c8_chilealerta_end_to_end :
    (fetchFromChileAlerta caJson).toOption.map (fun df => df.rows.length) = some 1 ∧
    (fetchFromChileAlerta caJson).toOption.map
      (fun df => df.rows.map (fun r => rget r "latitud")) = some [PyVal.vNum (-33.45 : Rat)] ∧
    (fetchFromChileAlerta caJson).toOption.map
      (fun df => df.rows.map (fun r => rget r "longitud")) = some [PyVal.vNum (-70.66 : Rat)] ∧
    (fetchFromChileAlerta caJson).toOption.map
      (fun df => df.rows.map (fun r => rget r "profundidad")) = some [PyVal.vNum (35 : Rat)] ∧
    (fetchFromChileAlerta caJson).toOption.map
      (fun df => df.rows.map (fun r => rget r "magnitud")) = some [PyVal.vNum (4.5 : Rat)] ∧
    (fetchFromChileAlerta caJson).toOption.map
      (fun df => df.rows.map (fun r => rget r "referencia")) = some [PyVal.vStr "Santiago"] := by
  refine ⟨by decide, by decide, by decide, by decide, by decide, by decide⟩

/-- C10: the normalizer's output always carries every canonical column
(`fecha`, `magnitud`, `profundidad`, `latitud`, `longitud`,
`referencia`) and every derived column (`fecha_dt`, `fecha_local`,
`dia`, `hora`), whatever the input's columns; and a canonical field none
of whose candidate names occurs among the (lowercased) input columns is
created as an all-null column by the mapping step rather than being
absent or raising. -/
theorem c10_canonical_columns :
    (∀ df, ∀ k ∈ canonicalCols, k ∈ (normalizeDF df).cols) ∧
    (∀ (df : DF) (k : String) (cand : List String), (k, cand) ∈ colmap →
      firstMatchName cand (df.cols.map lowerStr) = none →
      ∀ r ∈ (mapColumns df).rows, rget r k = PyVal.vNone) := by
  constructor
  · intro df k hk
    simp only [canonicalCols, List.mem_cons, List.not_mem_nil, or_false] at hk
    rcases hk with rfl | rfl | rfl | rfl | rfl | rfl | rfl | rfl | rfl | rfl
    · exact normalize_cols_of_mapped
        (foldl_mapStep_cols_mem df.cols (df.cols.map lowerStr) colmap df "fecha"
          ["fecha", "fechautc", "time", "tiempo", "timestamp", "datetime", "date"] (by decide))
    · exact normalize_cols_of_mapped
        (foldl_mapStep_cols_mem df.cols (df.cols.map lowerStr) colmap df "magnitud"
          ["magnitud", "mag", "magnitude", "ml", "mw"] (by decide))
    · exact normalize_cols_of_mapped
        (foldl_mapStep_cols_mem df.cols (df.cols.map lowerStr) colmap df "profundidad"
          ["profundidad", "prof", "depth", "z"] (by decide))
    · exact normalize_cols_of_mapped
        (foldl_mapStep_cols_mem df.cols (df.cols.map lowerStr) colmap df "latitud"
          ["latitud", "lat", "latitude", "y"] (by decide))
    · exact normalize_cols_of_mapped
        (foldl_mapStep_cols_mem df.cols (df.cols.map lowerStr) colmap df "longitud"
          ["longitud", "lon", "long", "lng", "longitude", "x"] (by decide))
    · exact normalize_cols_of_mapped
        (foldl_mapStep_cols_mem df.cols (df.cols.map lowerStr) colmap df "referencia"
          ["referencia", "referenciageografica", "ref", "refgeografica", "lugar", "place", "title", "location"] (by decide))
    · exact (normalize_cols_tail df).1
    · exact (normalize_cols_tail df).2.1
    · exact (normalize_cols_tail df).2.2.1
    · exact (normalize_cols_tail df).2.2.2
  · intro df k cand hmem hnone r hr
    exact foldl_mapStep_null df.cols (df.cols.map lowerStr) colmap df k cand hmem
      (by decide) hnone r hr

/-- Witness for C10: the all-null-creation conjunct at a table with no
coordinate column at all. -/
theorem c10_canonical_columns_witness :
    ∀ r ∈ (mapColumns noLatDF).rows, rget r "latitud" = PyVal.vNone :=
  c10_canonical_columns.2 noLatDF "latitud" ["latitud", "lat", "latitude", "y"]
    (by decide) (by decide)

end Sismos
